import Mathlib

/-!
Formal model of `src/sendto.c` (SendTo+, Unicode rework).

Each definition is a shallow embedding of one C function.  External effects
(allocation, Win32 and COM calls) are modelled by explicit oracles: either a
`List Bool` consumed call by call, where an exhausted list means the call
succeeds (`headD false`), or plain function parameters describing what the
external call returns.  Handles (bitmaps, icons, COM interfaces) are numeric
identifiers; `none` models a `NULL` handle.
-/

/-- Constant `MAX_DEPTH` from sendto.c line 29 (`#define MAX_DEPTH 5`). -/
def MAX_DEPTH : Nat := 5

/-- One filesystem object as seen through `WIN32_FIND_DATAW`: its name, the
attribute bits the program tests (hidden, system, directory) and, when it is
a directory, the child entries `FindFirstFileExW` / `FindNextFileW` would
return, in enumeration order. -/
inductive FSNode : Type where
  | mk (name : String) (attrHidden : Bool) (attrSystem : Bool)
      (attrDirectory : Bool) (children : List FSNode)

def FSNode.name : FSNode → String
  | .mk n _ _ _ _ => n

def FSNode.attrHidden : FSNode → Bool
  | .mk _ h _ _ _ => h

def FSNode.attrSystem : FSNode → Bool
  | .mk _ _ s _ _ => s

def FSNode.attrDirectory : FSNode → Bool
  | .mk _ _ _ d _ => d

def FSNode.children : FSNode → List FSNode
  | .mk _ _ _ _ c => c

/-- `SkipEntry` (sendto.c:387-393): ignore entries carrying the hidden or
system attribute and the "." / ".." pseudo-entries. -/
def SkipEntry (findData : FSNode) : Bool :=
  findData.attrHidden || findData.attrSystem ||
    findData.name == "." || findData.name == ".."

/-- `MenuEntry` (sendto.c:160-163): an owned path plus an optional icon
bitmap handle (`none` models `NULL`). -/
abbrev MenuEntry : Type := String × Option Nat

/-- `MenuVector` (sendto.c:172-176): grow-only array.  `items` models the
first `count` initialised slots (so `count = items.length`), `capacity` the
allocated slot count. -/
structure MenuVector where
  items : List MenuEntry
  capacity : Nat
deriving DecidableEq

/-- `VectorEnsureCapacity` (sendto.c:185-210).  `allocOk` is the outcome of
the `realloc` call; when it fails the original buffer is kept, so the vector
is unchanged.  Capacity arithmetic is on `Nat`: the `UINT` doubling could
only wrap past `2^31` stored entries, which this store can never reach. -/
def VectorEnsureCapacity (allocOk : Bool) (vec : MenuVector) (need : Nat) :
    Bool × MenuVector :=
  if need ≤ vec.capacity then (true, vec)
  else
    let newCap0 := if vec.capacity ≠ 0 then vec.capacity * 2 else 64
    let newCap := if newCap0 < need then need else newCap0
    if allocOk then (true, { vec with capacity := newCap })
    else (false, vec)

/-- `VectorPush` (sendto.c:221-234): grow if needed, then append.  On growth
failure nothing is stored and the caller keeps ownership of `path` and
`icon`. -/
def VectorPush (allocOk : Bool) (vec : MenuVector) (path : String)
    (icon : Option Nat) : Bool × MenuVector :=
  let r := VectorEnsureCapacity allocOk vec (vec.items.length + 1)
  if r.1 then (true, { r.2 with items := r.2.items ++ [(path, icon)] })
  else (false, r.2)

/-- State threaded through `EnumerateFolder`: the shared `MenuVector`, the
`nextCmdId` counter, and outcome oracles for the fallible external calls
(`CombinePath`'s `malloc`, `FindFirstFileExW`, `VectorPush`'s `realloc`,
`CreatePopupMenu`).  Each oracle list is consumed one element per call, in
program order; an exhausted list means the call succeeds. -/
structure WalkSt where
  store : MenuVector
  nextCmdId : Nat
  combineFail : List Bool
  findFail : List Bool
  pushAllocFail : List Bool
  menuFail : List Bool
deriving DecidableEq

def takeCombine (st : WalkSt) : Bool × WalkSt :=
  (st.combineFail.headD false, { st with combineFail := st.combineFail.tail })

def takeFind (st : WalkSt) : Bool × WalkSt :=
  (st.findFail.headD false, { st with findFail := st.findFail.tail })

def takePushAlloc (st : WalkSt) : Bool × WalkSt :=
  (st.pushAllocFail.headD false,
   { st with pushAllocFail := st.pushAllocFail.tail })

def takeMenu (st : WalkSt) : Bool × WalkSt :=
  (st.menuFail.headD false, { st with menuFail := st.menuFail.tail })

/-- Result string of a successful `CombinePath` (sendto.c:134-147), which
wraps `PathCombineW`: the combination `dir\name`. -/
def CombinePath (dir name : String) : String := dir ++ "\\" ++ name

/-- Caption preparation in `AddFileItem` (sendto.c:421-427): copy at most
`MAX_PATH - 1` characters, then cut at the position returned by
`PathFindExtensionW` (the last dot), but only when that dot is not the very
first character. -/
def StripExtension (fileName : String) : String :=
  let cs := (fileName.take 259).toList
  let dots := (List.range cs.length).filter fun i => cs.getD i ' ' == '.'
  match dots.getLast? with
  | some j => if 0 < j then (cs.take j).asString else cs.asString
  | none => cs.asString

/-- One inserted menu item.  `path` is ghost data recording which filesystem
object the item was created for (the C `MENUITEMINFOW` stores caption,
command id or submenu handle, and bitmap; the path itself lives only in the
`MenuVector`). -/
inductive MItem : Type where
  | leaf (cmdId : Nat) (caption : String) (icon : Option Nat) (path : String)
  | node (helpId : Nat) (caption : String) (icon : Option Nat) (path : String)
      (sub : List MItem)

/-- `AddFileItem` (sendto.c:406-438): push first; on push failure release
the resources and insert no menu item; otherwise insert a leaf item whose
caption is the file name without its extension.  Returns the inserted item,
if any. -/
def AddFileItem (fileName : String) (bitmap : Option Nat) (commandId : Nat)
    (st : WalkSt) (path : String) : Option MItem × WalkSt :=
  let t := takePushAlloc st
  let r := VectorPush (!t.1) t.2.store path bitmap
  let st2 := { t.2 with store := r.2 }
  if r.1 then
    (some (.leaf commandId (StripExtension fileName) bitmap path), st2)
  else (none, st2)

mutual

/-- The `do … while (FindNextFileW)` body of `EnumerateFolder`
(sendto.c:531-574), walking the fetched entry list.  For a subdirectory the
`MItem.node` records `AddDirectoryItem` (sendto.c:450-481): the submenu item
is inserted, and the submenu tagged with help id `*nextCmdId`, before
`VectorPush`, whose success result is discarded there (sendto.c:563). -/
def EnumerateChildren (icons : String → Option Nat) (maxDepth : Nat) :
    List FSNode → String → Nat → WalkSt → List MItem × WalkSt
  | [], _, _, st => ([], st)
  | c :: rest, directory, depth, st =>
    if SkipEntry c then
      EnumerateChildren icons maxDepth rest directory depth st
    else
      let t := takeCombine st
      if t.1 then
        EnumerateChildren icons maxDepth rest directory depth t.2
      else
        let childPath := CombinePath directory c.name
        let bmp := icons childPath
        if c.attrDirectory then
          let m := takeMenu t.2
          if m.1 then
            EnumerateChildren icons maxDepth rest directory depth m.2
          else
            let helpId := m.2.nextCmdId
            let p := takePushAlloc m.2
            let pr := VectorPush (!p.1) p.2.store childPath bmp
            let st3 :=
              { p.2 with store := pr.2, nextCmdId := p.2.nextCmdId + 1 }
            let sub := EnumerateSubfolder icons maxDepth c childPath (depth + 1) st3
            let restR := EnumerateChildren icons maxDepth rest directory depth sub.2
            (MItem.node helpId c.name bmp childPath sub.1 :: restR.1, restR.2)
        else
          let cmdId := t.2.nextCmdId
          let st2 := { t.2 with nextCmdId := t.2.nextCmdId + 1 }
          let a := AddFileItem c.name bmp cmdId st2 childPath
          let restR := EnumerateChildren icons maxDepth rest directory depth a.2
          match a.1 with
          | some it => (it :: restR.1, restR.2)
          | none => (restR.1, restR.2)

/-- The recursive call `EnumerateFolder(subMenu, childPath, nextCmdId,
depth + 1, items)` (sendto.c:567): the same depth and directory guards as at
the head of `EnumerateFolder` (sendto.c:500-508), then its pattern
`CombinePath` and `FindFirstFileExW`, then the entry loop.  The caller
discards the returned `HRESULT`, so only the menu items and the state are
returned. -/
def EnumerateSubfolder (icons : String → Option Nat) (maxDepth : Nat) :
    FSNode → String → Nat → WalkSt → List MItem × WalkSt
  | FSNode.mk _ _ _ cDir cChildren, childPath, depth, st =>
    if maxDepth ≤ depth then ([], st)
    else if !cDir then ([], st)
    else
      let sc := takeCombine st
      if sc.1 then ([], sc.2)
      else
        let sf := takeFind sc.2
        if sf.1 then ([], sf.2)
        else EnumerateChildren icons maxDepth cChildren childPath depth sf.2

end

/-- `EnumerateFolder` (sendto.c:493-580): depth guard, directory guard,
pattern `CombinePath`, `FindFirstFileExW`, then the entry loop.  `target` is
`none` when `directory` names no existing filesystem object (then
`PathIsDirectoryW` is false).  Returns the menu items appended to `menu`,
the final state, and whether the returned `HRESULT` was a success. -/
def EnumerateFolder (icons : String → Option Nat) (maxDepth : Nat)
    (target : Option FSNode) (directory : String) (depth : Nat)
    (st : WalkSt) : List MItem × WalkSt × Bool :=
  if maxDepth ≤ depth then ([], st, true)
  else
    match target with
    | none => ([], st, true)
    | some n =>
      if !n.attrDirectory then ([], st, true)
      else
        let t := takeCombine st
        if t.1 then ([], t.2, false)
        else
          let f := takeFind t.2
          if f.1 then ([], f.2, false)
          else
            let r := EnumerateChildren icons maxDepth n.children directory depth f.2
            (r.1, r.2, true)

mutual

/-- Command identifier of one menu item, paired with the ghost path of the
item it was created for: a leaf contributes its command id, a submenu its
context-help id followed by the ids inside it. -/
def idsOfItem : MItem → List (Nat × String)
  | .leaf k _ _ p => [(k, p)]
  | .node h _ _ p sub => (h, p) :: idsOfList sub

/-- Command identifiers of a menu item forest, in assignment order. -/
def idsOfList : List MItem → List (Nat × String)
  | [] => []
  | it :: rest => idsOfItem it ++ idsOfList rest

end

mutual

/-- Number of filesystem entries a complete walk below `n` would encounter
and keep: every non-skipped child counts once, and non-skipped directory
children additionally contribute their own subtree (children of skipped
directories are never visited). -/
def totalEntries : FSNode → Nat
  | .mk _ _ _ _ children => totalEntriesList children

/-- Sum of `totalEntries` contributions of a child list. -/
def totalEntriesList : List FSNode → Nat
  | [] => 0
  | c :: rest =>
    (if SkipEntry c then 0
     else 1 + (if c.attrDirectory then totalEntries c else 0)) +
      totalEntriesList rest

end

mutual

/-- Number of depth levels a walk starting at directory `n` needs in order
to visit every non-skipped entry below `n`: one level to list `n` itself,
plus the deepest requirement among its non-skipped directory children. -/
def requiredDepth : FSNode → Nat
  | .mk _ _ _ _ children => 1 + requiredDepthList children

/-- Largest `requiredDepth` among the non-skipped directory children. -/
def requiredDepthList : List FSNode → Nat
  | [] => 0
  | c :: rest =>
    max (if SkipEntry c || !c.attrDirectory then 0 else requiredDepth c)
      (requiredDepthList rest)

end

/-- Case-insensitive wide-string equality, `_wcsicmp(a, b) == 0`: the two
strings agree character by character after lower-casing. -/
def WcsIEq (a b : String) : Bool :=
  a.data.map Char.toLower == b.data.map Char.toLower

/-- The argument scan loop of `ParseCommandLine` (sendto.c:909-937): walk the
arguments after the program name, abort (returning `none`, after the usage
message box) on a help switch or on a trailing `/D` with no directory, record
the directory following each `/D` (a later `/D` overwrites an earlier one),
and keep every other argument, in order, as a file. -/
def ParseArgsLoop : List String → Option String → List String →
    Option (Option String × List String)
  | [], dir, files => some (dir, files)
  | p :: rest, dir, files =>
    if WcsIEq p "/?" || WcsIEq p "-?" then none
    else if WcsIEq p "/D" then
      match rest with
      | d :: rest2 => ParseArgsLoop rest2 (some d) files
      | [] => none
    else ParseArgsLoop rest dir (files ++ [p])

/-- `ParseCommandLine` (sendto.c:888-949): keep `rawArgv[0]` at output index
0, then scan the remaining arguments.  Returns `none` when the C function
returns `FALSE` (help shown, or `/D` without an argument); the `malloc` and
`_wcsdup` failure exits are not modelled, every allocation is assumed to
succeed here.  `CommandLineToArgvW` guarantees a non-empty argument vector,
so the `[]` case is unreachable. -/
def ParseCommandLine (rawArgv : List String) :
    Option (Option String × List String) :=
  match rawArgv with
  | [] => none
  | exe :: rest =>
    (ParseArgsLoop rest none []).map fun r => (r.1, exe :: r.2)

/-- Declarative companion of the claim: the argument list with every `/D`
switch removed together with the argument it consumes. -/
def RemoveDirSwitches : List String → List String
  | [] => []
  | p :: rest =>
    if WcsIEq p "/D" then
      match rest with
      | _ :: rest2 => RemoveDirSwitches rest2
      | [] => []
    else p :: RemoveDirSwitches rest

/-- Declarative companion of the claim: the directory arguments supplied by
the `/D` switches, in order. -/
def DirOverrides : List String → List String
  | [] => []
  | p :: rest =>
    if WcsIEq p "/D" then
      match rest with
      | d :: rest2 => d :: DirOverrides rest2
      | [] => []
    else DirOverrides rest

/-- `PathIsDirectoryW` through the modelled filesystem lookup: false for a
missing object, otherwise the directory attribute. -/
def PathIsDirectory (target : Option FSNode) : Bool :=
  match target with
  | some n => n.attrDirectory
  | none => false

/-- `ValidateSendToDirectory` (sendto.c:985-994): the resolved path must be
non-`NULL` (`none` models a failed `ResolveSendToDirectory`), must exist and
must be a directory; otherwise an error box is shown and `FALSE` returned. -/
def ValidateSendToDirectory (fsLookup : String → Option FSNode)
    (path : Option String) : Bool :=
  match path with
  | none => false
  | some p => PathIsDirectory (fsLookup p)

/-- `BuildSendToMenu` (sendto.c:1004-1040): run `EnumerateFolder` from
command id 1 on an empty vector; fail (after an error box) when the
enumeration reports an error or when it stored no items. -/
def BuildSendToMenu (icons : String → Option Nat) (maxDepth : Nat)
    (fsLookup : String → Option FSNode) (sendToDir : String)
    (cf ff pf mf : List Bool) : Bool × List MItem × WalkSt :=
  let st0 : WalkSt := ⟨⟨[], 0⟩, 1, cf, ff, pf, mf⟩
  let r := EnumerateFolder icons maxDepth (fsLookup sendToDir) sendToDir 0 st0
  if !r.2.2 then (false, r.1, r.2.1)
  else if r.2.1.store.items.length = 0 then (false, r.1, r.2.1)
  else (true, r.1, r.2.1)

/-- `RunSendTo` (sendto.c:1124-1172).  Inputs: the raw argument vector, the
result of `ResolveSendToDirectory` (`none` models its `malloc` failure), the
filesystem, the icon resolver, the depth bound, the walk oracles, and the
command id returned by `DisplaySendToMenu` (0 means the menu was dismissed).
Output: the process exit code together with whether a modal error box was
shown.  After the menu is shown, both the dismissed and the selection paths
fall through to `EXIT_SUCCESS`; the drag-drop or `ShellExecuteW` performed
for a selection does not influence the exit code. -/
def RunSendTo (rawArgv : List String) (resolvedDefault : Option String)
    (fsLookup : String → Option FSNode) (icons : String → Option Nat)
    (maxDepth : Nat) (cf ff pf mf : List Bool) (choice : Nat) : Nat × Bool :=
  match ParseCommandLine rawArgv with
  | none => (1, true)
  | some (dirOpt, _cleanArgs) =>
    let sendToDir : Option String :=
      match dirOpt with
      | some d => some d
      | none => resolvedDefault
    if !ValidateSendToDirectory fsLookup sendToDir then (1, true)
    else
      match sendToDir with
      | none => (1, true)
      | some dir =>
        let b := BuildSendToMenu icons maxDepth fsLookup dir cf ff pf mf
        if !b.1 then (1, true)
        else
          let _ := choice
          (0, false)

/-- `DibFromIcon` (sendto.c:284-325).  `iconHandle` is the source `HICON`
(`none` models `NULL`); the booleans are the outcomes of `GetIconInfo`,
`GetObject`, `CreateDIBSection` and `CreateCompatibleDC`; `dibId` identifies
the DIB section allocated on success.  Returns the produced bitmap (the DIB
is returned even when the drawing DC could not be created) and the number of
`DestroyIcon` calls made on `iconHandle`. -/
def DibFromIcon (iconHandle : Option Nat)
    (getIconInfoOk getObjectOk createDibOk createDCOk : Bool)
    (dibId : Nat) : Option Nat × Nat :=
  match iconHandle with
  | none => (none, 0)
  | some _ =>
    if !getIconInfoOk then (none, 1)
    else if !getObjectOk then (none, 1)
    else
      let dibBitmap := if createDibOk then some dibId else none
      let _ := createDCOk
      (dibBitmap, 1)

/-- Ledger of parent `IShellFolder` references acquired by `SHBindToParent`
and released by `SAFE_RELEASE`, in call order. -/
structure BindLedger where
  acquired : List Nat
  released : List Nat
deriving DecidableEq

/-- One `SAFE_RELEASE(parentFolder)` (sendto.c:37): releases the held
reference, if any. -/
def SafeRelease (handle : Option Nat) (led : BindLedger) : BindLedger :=
  match handle with
  | some x => { led with released := led.released ++ [x] }
  | none => led

/-- The binding loop of `GetShellInterfaceForPIDLs` (sendto.c:648-665).
`binds` holds one outcome per PIDL: `some parent` when `SHBindToParent`
succeeds (on failure, `none`, the out parameter is not written).  The
just-bound parent folder is released immediately except after the last PIDL;
on a failure the currently held reference is released and the loop aborts.
Returns (loop succeeded, parent folder still held, ledger). -/
def BindLoop : List (Option Nat) → Option Nat → BindLedger →
    Bool × Option Nat × BindLedger
  | [], parentFolder, led => (true, parentFolder, led)
  | none :: _, parentFolder, led => (false, none, SafeRelease parentFolder led)
  | some p :: rest, _, led =>
    let led1 := { led with acquired := led.acquired ++ [p] }
    if rest.isEmpty then BindLoop rest (some p) led1
    else BindLoop rest none { led1 with released := led1.released ++ [p] }

/-- `GetShellInterfaceForPIDLs` (sendto.c:630-683).  `callocOk` is the
outcome of the `childIDs` allocation; `uiObjectResult` is what
`GetUIObjectOf` on the final parent folder produces (`none` on failure).
Returns (`HRESULT` succeeded, `*ppvInterface`, ledger).  With an empty PIDL
array the C code would dereference a `NULL` parent folder; that case is
unreachable through `GetShellInterfaceForPaths` (its `pathCount <= 0` guard)
and is modelled as a failure. -/
def GetShellInterfaceForPIDLs (callocOk : Bool) (binds : List (Option Nat))
    (uiObjectResult : Option Nat) : Bool × Option Nat × BindLedger :=
  if !callocOk then (false, none, ⟨[], []⟩)
  else
    let r := BindLoop binds none ⟨[], []⟩
    if !r.1 then (false, none, r.2.2)
    else
      match r.2.1 with
      | none => (false, none, r.2.2)
      | some p =>
        let led := SafeRelease (some p) r.2.2
        match uiObjectResult with
        | some h => (true, some h, led)
        | none => (false, none, led)

/-- Which of the drop target's methods `ExecuteDropOperation` invoked. -/
structure DropCalls where
  enterCalled : Bool
  dropCalled : Bool
  leaveCalled : Bool
deriving DecidableEq

/-- `ExecuteDropOperation` (sendto.c:757-780).  `dataObjPresent` and
`dropTargetPresent` model the `NULL` guards on the two COM pointers;
`dragEnter` is the drop target's `DragEnter` behaviour, mapping the
requested effect mask to (`SUCCEEDED(hrEnter)`, the effect value it leaves
in `*pdwEffect`).  The requested mask is
`DROPEFFECT_COPY | DROPEFFECT_MOVE | DROPEFFECT_LINK = 7`. -/
def ExecuteDropOperation (dataObjPresent dropTargetPresent : Bool)
    (dragEnter : Nat → Bool × Nat) : DropCalls :=
  if !dataObjPresent || !dropTargetPresent then ⟨false, false, false⟩
  else
    let e := dragEnter 7
    if e.1 && e.2 != 0 then ⟨true, true, false⟩
    else ⟨true, false, true⟩

/-! Helper lemmas about the oracle-consuming state steps. -/

theorem takeCombine_snd_store (st : WalkSt) :
    (takeCombine st).2.store = st.store := rfl

theorem takeCombine_snd_cmd (st : WalkSt) :
    (takeCombine st).2.nextCmdId = st.nextCmdId := rfl

theorem takeCombine_snd_push (st : WalkSt) :
    (takeCombine st).2.pushAllocFail = st.pushAllocFail := rfl

theorem takeFind_snd_store (st : WalkSt) :
    (takeFind st).2.store = st.store := rfl

theorem takeFind_snd_cmd (st : WalkSt) :
    (takeFind st).2.nextCmdId = st.nextCmdId := rfl

theorem takeFind_snd_push (st : WalkSt) :
    (takeFind st).2.pushAllocFail = st.pushAllocFail := rfl

theorem takeMenu_snd_store (st : WalkSt) :
    (takeMenu st).2.store = st.store := rfl

theorem takeMenu_snd_cmd (st : WalkSt) :
    (takeMenu st).2.nextCmdId = st.nextCmdId := rfl

theorem takeMenu_snd_push (st : WalkSt) :
    (takeMenu st).2.pushAllocFail = st.pushAllocFail := rfl

theorem takeCombine_empty (st : WalkSt) (h : st.combineFail = []) :
    takeCombine st = (false, st) := by
  cases st with
  | mk s c cf ff pf mf => subst h; simp [takeCombine]

theorem takeFind_empty (st : WalkSt) (h : st.findFail = []) :
    takeFind st = (false, st) := by
  cases st with
  | mk s c cf ff pf mf => subst h; simp [takeFind]

theorem takePushAlloc_empty (st : WalkSt) (h : st.pushAllocFail = []) :
    takePushAlloc st = (false, st) := by
  cases st with
  | mk s c cf ff pf mf => subst h; simp [takePushAlloc]

theorem takeMenu_empty (st : WalkSt) (h : st.menuFail = []) :
    takeMenu st = (false, st) := by
  cases st with
  | mk s c cf ff pf mf => subst h; simp [takeMenu]

theorem vectorPush_true (vec : MenuVector) (path : String) (icon : Option Nat) :
    (VectorPush true vec path icon).1 = true ∧
    (VectorPush true vec path icon).2.items = vec.items ++ [(path, icon)] := by
  unfold VectorPush VectorEnsureCapacity
  by_cases h : vec.items.length + 1 ≤ vec.capacity <;> simp [h]

/-! Auxiliary arithmetic fact about zipping consecutive identifiers. -/

theorem zip_range'_append {α : Type} (s : Nat) (xs ys : List α) :
    List.zip (List.range' s (xs.length + ys.length)) (xs ++ ys)
      = List.zip (List.range' s xs.length) xs
        ++ List.zip (List.range' (s + xs.length) ys.length) ys := by
  induction xs generalizing s with
  | nil => simp
  | cons x xs ih =>
    simp only [List.length_cons, List.cons_append]
    rw [show xs.length + 1 + ys.length = (xs.length + ys.length) + 1 by omega,
      List.range'_succ, List.range'_succ]
    have h2 : s + (xs.length + 1) = s + 1 + xs.length := by omega
    simp only [List.zip, List.zipWith_cons_cons]
    rw [h2]
    have h3 := ih (s + 1)
    simp only [List.zip] at h3
    rw [h3]
    simp

theorem enumerateChildren_ids (icons : String → Option Nat) (maxDepth : Nat)
    (l : List FSNode) (directory : String) (depth : Nat) (st : WalkSt) :
    st.pushAllocFail = [] →
    ∃ new : List MenuEntry,
      (EnumerateChildren icons maxDepth l directory depth st).2.store.items
          = st.store.items ++ new ∧
      (EnumerateChildren icons maxDepth l directory depth st).2.nextCmdId
          = st.nextCmdId + new.length ∧
      (EnumerateChildren icons maxDepth l directory depth st).2.pushAllocFail = [] ∧
      idsOfList (EnumerateChildren icons maxDepth l directory depth st).1
          = List.zip (List.range' st.nextCmdId new.length) (new.map Prod.fst) := by
  refine EnumerateChildren.induct icons maxDepth
    (fun l directory depth st =>
      st.pushAllocFail = [] →
      ∃ new : List MenuEntry,
        (EnumerateChildren icons maxDepth l directory depth st).2.store.items
            = st.store.items ++ new ∧
        (EnumerateChildren icons maxDepth l directory depth st).2.nextCmdId
            = st.nextCmdId + new.length ∧
        (EnumerateChildren icons maxDepth l directory depth st).2.pushAllocFail = [] ∧
        idsOfList (EnumerateChildren icons maxDepth l directory depth st).1
            = List.zip (List.range' st.nextCmdId new.length) (new.map Prod.fst))
    (fun c childPath depth st =>
      st.pushAllocFail = [] →
      ∃ new : List MenuEntry,
        (EnumerateSubfolder icons maxDepth c childPath depth st).2.store.items
            = st.store.items ++ new ∧
        (EnumerateSubfolder icons maxDepth c childPath depth st).2.nextCmdId
            = st.nextCmdId + new.length ∧
        (EnumerateSubfolder icons maxDepth c childPath depth st).2.pushAllocFail = [] ∧
        idsOfList (EnumerateSubfolder icons maxDepth c childPath depth st).1
            = List.zip (List.range' st.nextCmdId new.length) (new.map Prod.fst))
    ?_ ?_ ?_ ?_ ?_ ?_ ?_ ?_ ?_ ?_ ?_ ?_ l directory depth st
  · -- subfolder: depth guard
    intro name hid sys cDir cChildren childPath depth st hle hpush
    exact ⟨[], by simp [EnumerateSubfolder, hle, idsOfList, hpush]⟩
  · -- subfolder: not a directory
    intro name hid sys cDir cChildren childPath depth st hle hdir hpush
    exact ⟨[], by simp [EnumerateSubfolder, hle, hdir, idsOfList, hpush]⟩
  · -- subfolder: pattern CombinePath fails
    intro name hid sys cDir cChildren childPath depth st hle hdir
    dsimp only
    intro hsc hpush
    refine ⟨[], ?_⟩
    simp [EnumerateSubfolder, hle, hdir, hsc, idsOfList,
      takeCombine_snd_store, takeCombine_snd_cmd, takeCombine_snd_push, hpush]
  · -- subfolder: FindFirstFileExW fails
    intro name hid sys cDir cChildren childPath depth st hle hdir
    dsimp only
    intro hsc hsf hpush
    refine ⟨[], ?_⟩
    simp [EnumerateSubfolder, hle, hdir, hsc, hsf, idsOfList,
      takeCombine_snd_store, takeCombine_snd_cmd, takeCombine_snd_push,
      takeFind_snd_store, takeFind_snd_cmd, takeFind_snd_push, hpush]
  · -- subfolder: main branch, delegates to the child walk
    intro name hid sys cDir cChildren childPath depth st hle hdir
    dsimp only
    intro hsc hsf ih hpush
    have hpush2 : ((takeFind (takeCombine st).2).2).pushAllocFail = [] := by
      simp [takeFind_snd_push, takeCombine_snd_push, hpush]
    obtain ⟨new, h1, h2, h3, h4⟩ := ih hpush2
    have hred : EnumerateSubfolder icons maxDepth
        (FSNode.mk name hid sys cDir cChildren) childPath depth st
        = EnumerateChildren icons maxDepth cChildren childPath depth
            (takeFind (takeCombine st).2).2 := by
      simp [EnumerateSubfolder, hle, hdir, hsc, hsf]
    refine ⟨new, ?_, ?_, ?_, ?_⟩
    · rw [hred, h1]; simp [takeFind_snd_store, takeCombine_snd_store]
    · rw [hred, h2]; simp [takeFind_snd_cmd, takeCombine_snd_cmd]
    · rw [hred]; exact h3
    · rw [hred, h4]; simp [takeFind_snd_cmd, takeCombine_snd_cmd]
  · -- children: nil
    intro directory depth st hpush
    exact ⟨[], by simp [EnumerateChildren, idsOfList, hpush]⟩
  · -- children: skipped entry
    intro c rest directory depth st hskip ih hpush
    obtain ⟨new, h1, h2, h3, h4⟩ := ih hpush
    exact ⟨new, by simp [EnumerateChildren, hskip, h1, h2, h3, h4]⟩
  · -- children: CombinePath for the child fails
    intro c rest directory depth st hskip
    dsimp only
    intro ht ih hpush
    have hpush2 : ((takeCombine st).2).pushAllocFail = [] := by
      simp [takeCombine_snd_push, hpush]
    obtain ⟨new, h1, h2, h3, h4⟩ := ih hpush2
    have hred : EnumerateChildren icons maxDepth (c :: rest) directory depth st
        = EnumerateChildren icons maxDepth rest directory depth (takeCombine st).2 := by
      simp [EnumerateChildren, hskip, ht]
    refine ⟨new, ?_, ?_, ?_, ?_⟩
    · rw [hred, h1]; simp [takeCombine_snd_store]
    · rw [hred, h2]; simp [takeCombine_snd_cmd]
    · rw [hred]; exact h3
    · rw [hred, h4]; simp [takeCombine_snd_cmd]
  · -- children: CreatePopupMenu fails
    intro c rest directory depth st hskip
    dsimp only
    intro ht hdir hm ih hpush
    have hpush2 : ((takeMenu (takeCombine st).2).2).pushAllocFail = [] := by
      simp [takeMenu_snd_push, takeCombine_snd_push, hpush]
    obtain ⟨new, h1, h2, h3, h4⟩ := ih hpush2
    have hred : EnumerateChildren icons maxDepth (c :: rest) directory depth st
        = EnumerateChildren icons maxDepth rest directory depth
            (takeMenu (takeCombine st).2).2 := by
      simp [EnumerateChildren, hskip, ht, hdir, hm]
    refine ⟨new, ?_, ?_, ?_, ?_⟩
    · rw [hred, h1]; simp [takeMenu_snd_store, takeCombine_snd_store]
    · rw [hred, h2]; simp [takeMenu_snd_cmd, takeCombine_snd_cmd]
    · rw [hred]; exact h3
    · rw [hred, h4]; simp [takeMenu_snd_cmd, takeCombine_snd_cmd]
  · -- children: directory entry, main branch
    intro c rest directory depth st hskip
    dsimp only
    intro ht hdir hm ihSub ihRest hpush
    have hpm : ((takeMenu (takeCombine st).2).2).pushAllocFail = [] := by
      simp [takeMenu_snd_push, takeCombine_snd_push, hpush]
    have htp := takePushAlloc_empty _ hpm
    simp only [htp, Bool.not_false] at ihSub ihRest
    obtain ⟨subNew, s1, s2, s3, s4⟩ := ihSub (by simp [hpm])
    obtain ⟨restNew, r1, r2, r3, r4⟩ := ihRest s3
    simp only [takeMenu_snd_store, takeCombine_snd_store, takeMenu_snd_cmd,
      takeCombine_snd_cmd, takeMenu_snd_push, takeCombine_snd_push]
      at s1 s2 s3 s4 r1 r2 r3 r4
    have hvp := vectorPush_true st.store
      (CombinePath directory c.name) (icons (CombinePath directory c.name))
    have hred : EnumerateChildren icons maxDepth (c :: rest) directory depth st
        = (MItem.node ((takeMenu (takeCombine st).2).2.nextCmdId) c.name
             (icons (CombinePath directory c.name)) (CombinePath directory c.name)
             (EnumerateSubfolder icons maxDepth c (CombinePath directory c.name)
               (depth + 1)
               { (takeMenu (takeCombine st).2).2 with
                   store := (VectorPush true ((takeMenu (takeCombine st).2).2).store
                     (CombinePath directory c.name)
                     (icons (CombinePath directory c.name))).2,
                   nextCmdId := ((takeMenu (takeCombine st).2).2).nextCmdId + 1 }).1
             :: (EnumerateChildren icons maxDepth rest directory depth
                  (EnumerateSubfolder icons maxDepth c (CombinePath directory c.name)
                    (depth + 1)
                    { (takeMenu (takeCombine st).2).2 with
                        store := (VectorPush true ((takeMenu (takeCombine st).2).2).store
                          (CombinePath directory c.name)
                          (icons (CombinePath directory c.name))).2,
                        nextCmdId := ((takeMenu (takeCombine st).2).2).nextCmdId + 1 }).2).1,
           (EnumerateChildren icons maxDepth rest directory depth
              (EnumerateSubfolder icons maxDepth c (CombinePath directory c.name)
                (depth + 1)
                { (takeMenu (takeCombine st).2).2 with
                    store := (VectorPush true ((takeMenu (takeCombine st).2).2).store
                      (CombinePath directory c.name)
                      (icons (CombinePath directory c.name))).2,
                    nextCmdId := ((takeMenu (takeCombine st).2).2).nextCmdId + 1 }).2).2) := by
      simp only [EnumerateChildren]
      simp [hskip, ht, hdir, hm, htp]
    refine ⟨(CombinePath directory c.name, icons (CombinePath directory c.name))
      :: (subNew ++ restNew), ?_, ?_, ?_, ?_⟩
    · rw [hred]
      simp only [takeMenu_snd_store, takeCombine_snd_store, takeMenu_snd_cmd,
        takeCombine_snd_cmd, takeMenu_snd_push, takeCombine_snd_push]
      rw [r1, s1]
      rw [hvp.2]
      simp [List.append_assoc]
    · rw [hred]
      simp only [takeMenu_snd_store, takeCombine_snd_store, takeMenu_snd_cmd,
        takeCombine_snd_cmd, takeMenu_snd_push, takeCombine_snd_push]
      rw [r2, s2]
      simp [List.length_append]
      omega
    · rw [hred]
      simp only [takeMenu_snd_store, takeCombine_snd_store, takeMenu_snd_cmd,
        takeCombine_snd_cmd, takeMenu_snd_push, takeCombine_snd_push]
      exact r3
    · rw [hred]
      simp only [takeMenu_snd_store, takeCombine_snd_store, takeMenu_snd_cmd,
        takeCombine_snd_cmd, takeMenu_snd_push, takeCombine_snd_push]
      simp only [idsOfList, idsOfItem]
      rw [s4, r4, s2]
      simp only [List.length_cons, List.length_append, List.map_cons,
        List.map_append, List.cons_append]
      rw [List.range'_succ, List.zip_cons_cons]
      have hz := zip_range'_append (st.nextCmdId + 1) (List.map Prod.fst subNew)
        (List.map Prod.fst restNew)
      simp only [List.length_map] at hz
      rw [hz]
  · -- children: file entry, push succeeds
    intro c rest directory depth st hskip
    dsimp only
    intro ht hdir it hsome ihRest hpush
    have hp2 : ((takeCombine st).2).pushAllocFail = [] := by
      simp [takeCombine_snd_push, hpush]
    have htp := takePushAlloc_empty
      { (takeCombine st).2 with nextCmdId := (takeCombine st).2.nextCmdId + 1 } hp2
    have hvp := vectorPush_true ((takeCombine st).2).store
      (CombinePath directory c.name) (icons (CombinePath directory c.name))
    have ha : AddFileItem c.name (icons (CombinePath directory c.name))
        ((takeCombine st).2).nextCmdId
        { (takeCombine st).2 with nextCmdId := (takeCombine st).2.nextCmdId + 1 }
        (CombinePath directory c.name)
        = (some (MItem.leaf ((takeCombine st).2).nextCmdId
             (StripExtension c.name) (icons (CombinePath directory c.name))
             (CombinePath directory c.name)),
           { (takeCombine st).2 with
               nextCmdId := (takeCombine st).2.nextCmdId + 1,
               store := (VectorPush true ((takeCombine st).2).store
                 (CombinePath directory c.name)
                 (icons (CombinePath directory c.name))).2 }) := by
      simp [AddFileItem, htp, hvp.1]
    have ha1 : (AddFileItem c.name (icons (CombinePath directory c.name))
        ((takeCombine st).2).nextCmdId
        { (takeCombine st).2 with nextCmdId := (takeCombine st).2.nextCmdId + 1 }
        (CombinePath directory c.name)).1
        = some (MItem.leaf ((takeCombine st).2).nextCmdId
             (StripExtension c.name) (icons (CombinePath directory c.name))
             (CombinePath directory c.name)) := by rw [ha]
    have ha2 : (AddFileItem c.name (icons (CombinePath directory c.name))
        ((takeCombine st).2).nextCmdId
        { (takeCombine st).2 with nextCmdId := (takeCombine st).2.nextCmdId + 1 }
        (CombinePath directory c.name)).2
        = { (takeCombine st).2 with
              nextCmdId := (takeCombine st).2.nextCmdId + 1,
              store := (VectorPush true ((takeCombine st).2).store
                (CombinePath directory c.name)
                (icons (CombinePath directory c.name))).2 } := by rw [ha]
    rw [ha1] at hsome
    rw [Option.some.injEq] at hsome
    obtain ⟨restNew, r1, r2, r3, r4⟩ := ihRest (by rw [ha2]; exact hp2)
    rw [ha2] at r1 r2 r3 r4
    have hred : EnumerateChildren icons maxDepth (c :: rest) directory depth st
        = (it :: (EnumerateChildren icons maxDepth rest directory depth
             { (takeCombine st).2 with
                 nextCmdId := (takeCombine st).2.nextCmdId + 1,
                 store := (VectorPush true ((takeCombine st).2).store
                   (CombinePath directory c.name)
                   (icons (CombinePath directory c.name))).2 }).1,
           (EnumerateChildren icons maxDepth rest directory depth
             { (takeCombine st).2 with
                 nextCmdId := (takeCombine st).2.nextCmdId + 1,
                 store := (VectorPush true ((takeCombine st).2).store
                   (CombinePath directory c.name)
                   (icons (CombinePath directory c.name))).2 }).2) := by
      simp only [EnumerateChildren]
      simp [hskip, ht, hdir, ha, ← hsome]
    refine ⟨(CombinePath directory c.name, icons (CombinePath directory c.name))
      :: restNew, ?_, ?_, ?_, ?_⟩
    · rw [hred, r1]
      show ((VectorPush true ((takeCombine st).2).store
          (CombinePath directory c.name)
          (icons (CombinePath directory c.name))).2.items ++ restNew
        = _ ++ _)
      rw [hvp.2]
      simp [takeCombine_snd_store, List.append_assoc]
    · rw [hred, r2]
      show ((takeCombine st).2.nextCmdId + 1 + restNew.length = _)
      simp [takeCombine_snd_cmd]
      omega
    · rw [hred]
      exact r3
    · rw [hred]
      simp only [idsOfList, idsOfItem, ← hsome]
      rw [r4]
      show ((takeCombine st).2.nextCmdId, CombinePath directory c.name)
          :: (List.range' ((takeCombine st).2.nextCmdId + 1) restNew.length).zip
               (List.map Prod.fst restNew) = _
      simp only [takeCombine_snd_cmd, List.length_cons, List.map_cons]
      rw [List.range'_succ, List.zip_cons_cons]
  · -- children: file entry, push fails (impossible here)
    intro c rest directory depth st hskip
    dsimp only
    intro ht hdir hnone ihRest hpush
    exfalso
    have hp2 : ((takeCombine st).2).pushAllocFail = [] := by
      simp [takeCombine_snd_push, hpush]
    have htp := takePushAlloc_empty
      { (takeCombine st).2 with nextCmdId := (takeCombine st).2.nextCmdId + 1 } hp2
    have hvp := vectorPush_true ((takeCombine st).2).store
      (CombinePath directory c.name) (icons (CombinePath directory c.name))
    simp [AddFileItem, htp, hvp.1] at hnone

/-- Claim C1 (amended): in every menu build started the way `BuildSendToMenu`
starts it (command-id counter 1, empty store) in which every `VectorPush`
succeeds (the `realloc` oracle is exhausted, i.e. never fails), the command
ids of all produced menu items — leaf command ids and submenu context-help
ids alike — paired with the paths of the filesystem objects they were
created for, are exactly `1, 2, …, count` in store order: the item whose id
is `i + 1` belongs to the Entry Store record at index `i`, so in particular
every submenu's context-help identifier equals the command id slot of its
own Entry, and the final counter is `count + 1`.  Growth reallocations of
the vector never lose or reorder earlier entries.  (The original claim also
asserted this when an individual `VectorPush` fails; that part is refuted by
`enumerateFolder_cmdid_desync_on_push_failure`.) -/
theorem enumerateFolder_ids_aligned (icons : String → Option Nat)
    (maxDepth : Nat) (target : Option FSNode) (directory : String)
    (cf ff mf : List Bool) :
    idsOfList (EnumerateFolder icons maxDepth target directory 0
        ⟨⟨[], 0⟩, 1, cf, ff, [], mf⟩).1
      = List.zip
          (List.range' 1
            (EnumerateFolder icons maxDepth target directory 0
              ⟨⟨[], 0⟩, 1, cf, ff, [], mf⟩).2.1.store.items.length)
          ((EnumerateFolder icons maxDepth target directory 0
              ⟨⟨[], 0⟩, 1, cf, ff, [], mf⟩).2.1.store.items.map Prod.fst) ∧
    (EnumerateFolder icons maxDepth target directory 0
        ⟨⟨[], 0⟩, 1, cf, ff, [], mf⟩).2.1.nextCmdId
      = (EnumerateFolder icons maxDepth target directory 0
          ⟨⟨[], 0⟩, 1, cf, ff, [], mf⟩).2.1.store.items.length + 1 := by
  unfold EnumerateFolder
  by_cases h0 : maxDepth ≤ 0
  · simp [h0, idsOfList]
  · simp only [h0, if_false]
    cases target with
    | none => simp [idsOfList]
    | some n =>
      by_cases hd : (!n.attrDirectory) = true
      · simp [hd, idsOfList]
      · simp only [hd, Bool.false_eq_true, if_false]
        by_cases hc : cf.head?.getD false = true
        · simp [takeCombine, hc, idsOfList]
        · by_cases hf : ff.head?.getD false = true
          · simp [takeCombine, takeFind, hc, hf, idsOfList]
          · obtain ⟨new, h1, h2, h3, h4⟩ :=
              enumerateChildren_ids icons maxDepth n.children directory 0
                ⟨⟨[], 0⟩, 1, cf.tail, ff.tail, [], mf⟩ rfl
            simp only [List.nil_append] at h1
            simp [takeCombine, takeFind, hc, hf, h1, h2, h4]
            omega

/-- Destination tree for the C1 counterexample: a directory holding two
plain files. -/
def PushFailRoot : FSNode :=
  .mk "R" false false true
    [ .mk "f1.txt" false false false [], .mk "f2.txt" false false false [] ]

/-- Claim C1, counterexample to the "including when an individual
`VectorPush` fails" part.  Walking `PushFailRoot` from command id 1 on an
empty store while the first `VectorPush` fails its `realloc` (oracle
`[true]`) produces a menu whose only item carries command id 2 for path
`R\f2.txt`, while the store holds that entry at index 0: the id/path
assignment `[(2, R\f2.txt)]` differs from the index-aligned assignment
`zip [1] [R\f2.txt]`, so the entry at index 0 does not carry command id 1,
and selecting the shown item would read `items[2 - 1]`, one past the end of
the store.  The command counter was advanced by the failed push even though
no record was stored. -/
theorem enumerateFolder_cmdid_desync_on_push_failure :
    idsOfList (EnumerateFolder (fun _ => none) 5 (some PushFailRoot) "R" 0
        ⟨⟨[], 0⟩, 1, [], [], [true], []⟩).1 = [(2, "R\\f2.txt")] ∧
    (EnumerateFolder (fun _ => none) 5 (some PushFailRoot) "R" 0
        ⟨⟨[], 0⟩, 1, [], [], [true], []⟩).2.1.store.items.map Prod.fst
      = ["R\\f2.txt"] ∧
    [((2 : Nat), "R\\f2.txt")]
      ≠ List.zip (List.range' 1 1) ["R\\f2.txt"] := by
  refine ⟨rfl, rfl, by decide⟩

/-- Claim C5: whenever `EnumerateFolder` is called with `depth ≥ MAX_DEPTH`,
or on a path that does not exist or is not a directory, it returns `S_OK`
immediately with no items added: the menu receives nothing and the whole
walk state — Entry Store included — is returned unchanged. -/
theorem enumerateFolder_noop_on_guard (icons : String → Option Nat)
    (maxDepth : Nat) (target : Option FSNode) (directory : String)
    (depth : Nat) (st : WalkSt)
    (h : maxDepth ≤ depth ∨ PathIsDirectory target = false) :
    EnumerateFolder icons maxDepth target directory depth st
      = ([], st, true) := by
  rcases h with h | h
  · simp [EnumerateFolder, h]
  · unfold EnumerateFolder
    split
    · rfl
    · cases target with
      | none => rfl
      | some n =>
        simp only [PathIsDirectory] at h
        simp [h]

/-- Witness for `enumerateFolder_noop_on_guard`: at depth 7 with bound
`MAX_DEPTH = 5` the call is an immediate successful no-op. -/
theorem enumerateFolder_noop_on_guard_witness :
    EnumerateFolder (fun _ => none) MAX_DEPTH
        (some (.mk "sendto" false false true [.mk "a.txt" false false false []]))
        "C:\\sendto" 7 ⟨⟨[], 0⟩, 1, [], [], [], []⟩
      = ([], ⟨⟨[], 0⟩, 1, [], [], [], []⟩, true) :=
  enumerateFolder_noop_on_guard _ _ _ _ _ _ (Or.inl (by decide))

/-- Destination tree of claim C4: `Notes/` (empty), `Archive.zip` (file) and
`Backups/Daily/` (nested directories). -/
def C4Root : FSNode :=
  .mk "R" false false true
    [ .mk "Notes" false false true []
    , .mk "Archive.zip" false false false []
    , .mk "Backups" false false true [.mk "Daily" false false true []] ]

/-- Claim C4, counterexample.  Walking the claimed scenario with
`MAX_DEPTH = 2` and no failures stores four entries — `Notes`,
`Archive.zip`, `Backups` and also `Backups\Daily`, because `Daily` is
discovered by the recursive call running at depth 1 < 2 — so the store does
not have exactly 3 entries. -/
theorem c4_walk_stores_four_not_three :
    (EnumerateFolder (fun _ => none) 2 (some C4Root) "R" 0
        ⟨⟨[], 0⟩, 1, [], [], [], []⟩).2.1.store.items.map Prod.fst
      = ["R\\Notes", "R\\Archive.zip", "R\\Backups", "R\\Backups\\Daily"] ∧
    (EnumerateFolder (fun _ => none) 2 (some C4Root) "R" 0
        ⟨⟨[], 0⟩, 1, [], [], [], []⟩).2.1.store.items.length ≠ 3 := by
  refine ⟨rfl, by decide⟩

/-- The C4 tree with a file inside `Daily`, to exhibit that the contents of
`Backups\Daily` contribute nothing. -/
def C4RootDeep : FSNode :=
  .mk "R" false false true
    [ .mk "Notes" false false true []
    , .mk "Archive.zip" false false false []
    , .mk "Backups" false false true
        [.mk "Daily" false false true [.mk "inner.txt" false false false []]] ]

/-- Claim C4 (amended): in that scenario with `MAX_DEPTH = 2` the Entry
Store ends with exactly 4 entries — the three top-level items plus
`Backups\Daily` itself, which is discovered at recursion depth 1 < 2 —
while the contents of `Backups\Daily` (here `inner.txt`) contribute
nothing, because the recursive call entering `Daily` runs at depth
2 ≥ MAX_DEPTH. -/
theorem c4_walk_amended :
    (EnumerateFolder (fun _ => none) 2 (some C4RootDeep) "R" 0
        ⟨⟨[], 0⟩, 1, [], [], [], []⟩).2.1.store.items.map Prod.fst
      = ["R\\Notes", "R\\Archive.zip", "R\\Backups", "R\\Backups\\Daily"] ∧
    (EnumerateFolder (fun _ => none) 2 (some C4RootDeep) "R" 0
        ⟨⟨[], 0⟩, 1, [], [], [], []⟩).2.1.store.items.length = 4 := ⟨rfl, rfl⟩

theorem requiredDepth_pos (c : FSNode) : 1 ≤ requiredDepth c := by
  cases c with
  | mk n h s d ch => simp [requiredDepth]

theorem enumerateChildren_count (icons : String → Option Nat) (maxDepth : Nat)
    (l : List FSNode) (directory : String) (depth : Nat) (st : WalkSt) :
    st.combineFail = [] → st.findFail = [] → st.pushAllocFail = [] →
    st.menuFail = [] →
    depth + 1 + requiredDepthList l ≤ maxDepth →
    (EnumerateChildren icons maxDepth l directory depth st).2.store.items.length
        = st.store.items.length + totalEntriesList l ∧
    (EnumerateChildren icons maxDepth l directory depth st).2.combineFail = [] ∧
    (EnumerateChildren icons maxDepth l directory depth st).2.findFail = [] ∧
    (EnumerateChildren icons maxDepth l directory depth st).2.pushAllocFail = [] ∧
    (EnumerateChildren icons maxDepth l directory depth st).2.menuFail = [] := by
  refine EnumerateChildren.induct icons maxDepth
    (fun l directory depth st =>
      st.combineFail = [] → st.findFail = [] → st.pushAllocFail = [] →
      st.menuFail = [] →
      depth + 1 + requiredDepthList l ≤ maxDepth →
      (EnumerateChildren icons maxDepth l directory depth st).2.store.items.length
          = st.store.items.length + totalEntriesList l ∧
      (EnumerateChildren icons maxDepth l directory depth st).2.combineFail = [] ∧
      (EnumerateChildren icons maxDepth l directory depth st).2.findFail = [] ∧
      (EnumerateChildren icons maxDepth l directory depth st).2.pushAllocFail = [] ∧
      (EnumerateChildren icons maxDepth l directory depth st).2.menuFail = [])
    (fun c childPath depth st =>
      st.combineFail = [] → st.findFail = [] → st.pushAllocFail = [] →
      st.menuFail = [] →
      depth + requiredDepth c ≤ maxDepth → c.attrDirectory = true →
      (EnumerateSubfolder icons maxDepth c childPath depth st).2.store.items.length
          = st.store.items.length + totalEntries c ∧
      (EnumerateSubfolder icons maxDepth c childPath depth st).2.combineFail = [] ∧
      (EnumerateSubfolder icons maxDepth c childPath depth st).2.findFail = [] ∧
      (EnumerateSubfolder icons maxDepth c childPath depth st).2.pushAllocFail = [] ∧
      (EnumerateSubfolder icons maxDepth c childPath depth st).2.menuFail = [])
    ?_ ?_ ?_ ?_ ?_ ?_ ?_ ?_ ?_ ?_ ?_ ?_ l directory depth st
  · -- subfolder: depth guard, excluded by the depth budget
    intro name hid sys cDir cChildren childPath depth st hle hcf hff hpf hmf hbud hdir
    exfalso
    have := requiredDepth_pos (FSNode.mk name hid sys cDir cChildren)
    omega
  · -- subfolder: not a directory, excluded by hypothesis
    intro name hid sys cDir cChildren childPath depth st hle hdir
    intro hcf hff hpf hmf hbud hdirT
    exfalso
    simp [FSNode.attrDirectory] at hdirT
    simp [hdirT] at hdir
  · -- subfolder: pattern CombinePath failure, excluded by empty oracle
    intro name hid sys cDir cChildren childPath depth st hle hdir
    dsimp only
    intro hsc hcf hff hpf hmf hbud hdirT
    exfalso
    rw [takeCombine_empty st hcf] at hsc
    simp at hsc
  · -- subfolder: FindFirstFileExW failure, excluded by empty oracle
    intro name hid sys cDir cChildren childPath depth st hle hdir
    dsimp only
    intro hsc hsf hcf hff hpf hmf hbud hdirT
    exfalso
    rw [takeCombine_empty st hcf] at hsf
    rw [takeFind_empty st hff] at hsf
    simp at hsf
  · -- subfolder: main branch
    intro name hid sys cDir cChildren childPath depth st hle hdir
    dsimp only
    intro hsc hsf ih hcf hff hpf hmf hbud hdirT
    rw [takeCombine_empty st hcf, takeFind_empty st hff] at ih
    have hbud2 : depth + 1 + requiredDepthList cChildren ≤ maxDepth := by
      have : requiredDepth (FSNode.mk name hid sys cDir cChildren)
          = 1 + requiredDepthList cChildren := by simp [requiredDepth]
      omega
    obtain ⟨k1, k2, k3, k4, k5⟩ := ih hcf hff hpf hmf hbud2
    have hred : EnumerateSubfolder icons maxDepth
        (FSNode.mk name hid sys cDir cChildren) childPath depth st
        = EnumerateChildren icons maxDepth cChildren childPath depth st := by
      simp [EnumerateSubfolder, hle, hdir, takeCombine_empty st hcf,
        takeFind_empty st hff]
    rw [hred]
    refine ⟨?_, k2, k3, k4, k5⟩
    rw [k1]
    simp [totalEntries]
  · -- children: nil
    intro directory depth st hcf hff hpf hmf hbud
    simp [EnumerateChildren, totalEntriesList, hcf, hff, hpf, hmf]
  · -- children: skipped entry
    intro c rest directory depth st hskip ih hcf hff hpf hmf hbud
    have hbud2 : depth + 1 + requiredDepthList rest ≤ maxDepth := by
      have : requiredDepthList rest ≤ requiredDepthList (c :: rest) := by
        simp [requiredDepthList]
      omega
    obtain ⟨k1, k2, k3, k4, k5⟩ := ih hcf hff hpf hmf hbud2
    have hred : EnumerateChildren icons maxDepth (c :: rest) directory depth st
        = EnumerateChildren icons maxDepth rest directory depth st := by
      simp [EnumerateChildren, hskip]
    rw [hred]
    exact ⟨by rw [k1]; simp [totalEntriesList, hskip], k2, k3, k4, k5⟩
  · -- children: CombinePath failure, excluded
    intro c rest directory depth st hskip
    dsimp only
    intro ht ih hcf hff hpf hmf hbud
    exfalso
    rw [takeCombine_empty st hcf] at ht
    simp at ht
  · -- children: CreatePopupMenu failure, excluded
    intro c rest directory depth st hskip
    dsimp only
    intro ht hdir hm ih hcf hff hpf hmf hbud
    exfalso
    rw [takeCombine_empty st hcf] at hm
    rw [takeMenu_empty st hmf] at hm
    simp at hm
  · -- children: directory entry, main branch
    intro c rest directory depth st hskip
    dsimp only
    intro ht hdir hm ihSub ihRest hcf hff hpf hmf hbud
    rw [takeCombine_empty st hcf, takeMenu_empty st hmf,
      takePushAlloc_empty st hpf] at ihSub ihRest
    simp only [Bool.not_false] at ihSub ihRest
    have hvp := vectorPush_true st.store (CombinePath directory c.name)
      (icons (CombinePath directory c.name))
    have hA : (if SkipEntry c || !c.attrDirectory then 0 else requiredDepth c)
        = requiredDepth c := by
      simp [hskip, hdir]
    have hmax1 : requiredDepth c ≤ requiredDepthList (c :: rest) := by
      simp only [requiredDepthList]
      rw [hA]
      exact le_max_left _ _
    have hmax2 : requiredDepthList rest ≤ requiredDepthList (c :: rest) := by
      simp only [requiredDepthList]
      exact le_max_right _ _
    obtain ⟨s1, s2, s3, s4, s5⟩ := ihSub hcf hff hpf hmf (by omega) hdir
    obtain ⟨r1, r2, r3, r4, r5⟩ := ihRest s2 s3 s4 s5 (by omega)
    have hred : EnumerateChildren icons maxDepth (c :: rest) directory depth st
        = (MItem.node st.nextCmdId c.name (icons (CombinePath directory c.name))
             (CombinePath directory c.name)
             (EnumerateSubfolder icons maxDepth c (CombinePath directory c.name)
               (depth + 1)
               { st with
                   store := (VectorPush true st.store (CombinePath directory c.name)
                     (icons (CombinePath directory c.name))).2,
                   nextCmdId := st.nextCmdId + 1 }).1
             :: (EnumerateChildren icons maxDepth rest directory depth
                  (EnumerateSubfolder icons maxDepth c (CombinePath directory c.name)
                    (depth + 1)
                    { st with
                        store := (VectorPush true st.store (CombinePath directory c.name)
                          (icons (CombinePath directory c.name))).2,
                        nextCmdId := st.nextCmdId + 1 }).2).1,
           (EnumerateChildren icons maxDepth rest directory depth
              (EnumerateSubfolder icons maxDepth c (CombinePath directory c.name)
                (depth + 1)
                { st with
                    store := (VectorPush true st.store (CombinePath directory c.name)
                      (icons (CombinePath directory c.name))).2,
                    nextCmdId := st.nextCmdId + 1 }).2).2) := by
      simp only [EnumerateChildren]
      simp [hskip, ht, hdir, hm, takeCombine_empty st hcf, takeMenu_empty st hmf,
        takePushAlloc_empty st hpf]
    rw [hred]
    refine ⟨?_, r2, r3, r4, r5⟩
    rw [r1, s1]
    have hlen : ({ st with
        store := (VectorPush true st.store (CombinePath directory c.name)
          (icons (CombinePath directory c.name))).2,
        nextCmdId := st.nextCmdId + 1 } : WalkSt).store.items.length
        = st.store.items.length + 1 := by
      show (VectorPush true st.store (CombinePath directory c.name)
        (icons (CombinePath directory c.name))).2.items.length = _
      rw [hvp.2]
      simp
    rw [hlen]
    simp only [totalEntriesList, hskip, hdir]
    simp
    omega
  · -- children: file entry, push succeeds
    intro c rest directory depth st hskip
    dsimp only
    intro ht hdir it hsome ihRest hcf hff hpf hmf hbud
    rw [takeCombine_empty st hcf] at ihRest hsome
    have htp := takePushAlloc_empty { st with nextCmdId := st.nextCmdId + 1 }
      (by simpa using hpf)
    have hvp := vectorPush_true st.store (CombinePath directory c.name)
      (icons (CombinePath directory c.name))
    have ha : AddFileItem c.name (icons (CombinePath directory c.name)) st.nextCmdId
        { st with nextCmdId := st.nextCmdId + 1 } (CombinePath directory c.name)
        = (some (MItem.leaf st.nextCmdId (StripExtension c.name)
             (icons (CombinePath directory c.name)) (CombinePath directory c.name)),
           { st with
               store := (VectorPush true st.store (CombinePath directory c.name)
                 (icons (CombinePath directory c.name))).2,
               nextCmdId := st.nextCmdId + 1 }) := by
      simp [AddFileItem, htp, hvp.1]
    have ha2 : (AddFileItem c.name (icons (CombinePath directory c.name)) st.nextCmdId
        { st with nextCmdId := st.nextCmdId + 1 } (CombinePath directory c.name)).2
        = { st with
              store := (VectorPush true st.store (CombinePath directory c.name)
                (icons (CombinePath directory c.name))).2,
              nextCmdId := st.nextCmdId + 1 } := by rw [ha]
    rw [ha] at hsome
    rw [Option.some.injEq] at hsome
    have hmax2 : requiredDepthList rest ≤ requiredDepthList (c :: rest) := by
      simp only [requiredDepthList]
      exact le_max_right _ _
    obtain ⟨r1, r2, r3, r4, r5⟩ := ihRest (by rw [ha2]; exact hcf)
      (by rw [ha2]; exact hff) (by rw [ha2]; exact hpf) (by rw [ha2]; exact hmf)
      (by omega)
    rw [ha2] at r1 r2 r3 r4 r5
    have hred : EnumerateChildren icons maxDepth (c :: rest) directory depth st
        = (it :: (EnumerateChildren icons maxDepth rest directory depth
             { st with
                 store := (VectorPush true st.store (CombinePath directory c.name)
                   (icons (CombinePath directory c.name))).2,
                 nextCmdId := st.nextCmdId + 1 }).1,
           (EnumerateChildren icons maxDepth rest directory depth
             { st with
                 store := (VectorPush true st.store (CombinePath directory c.name)
                   (icons (CombinePath directory c.name))).2,
                 nextCmdId := st.nextCmdId + 1 }).2) := by
      simp only [EnumerateChildren]
      simp [hskip, ht, hdir, takeCombine_empty st hcf, ha, ← hsome]
    rw [hred]
    refine ⟨?_, r2, r3, r4, r5⟩
    rw [r1]
    have hlen : ({ st with
        store := (VectorPush true st.store (CombinePath directory c.name)
          (icons (CombinePath directory c.name))).2,
        nextCmdId := st.nextCmdId + 1 } : WalkSt).store.items.length
        = st.store.items.length + 1 := by
      show (VectorPush true st.store (CombinePath directory c.name)
        (icons (CombinePath directory c.name))).2.items.length = _
      rw [hvp.2]
      simp
    rw [hlen]
    simp only [totalEntriesList, hskip, hdir]
    simp
    omega
  · -- children: file entry, push fails, excluded
    intro c rest directory depth st hskip
    dsimp only
    intro ht hdir hnone ihRest hcf hff hpf hmf hbud
    exfalso
    have htp := takePushAlloc_empty
      { (takeCombine st).2 with nextCmdId := (takeCombine st).2.nextCmdId + 1 }
      (by simp [takeCombine_snd_push, hpf])
    have hvp := vectorPush_true ((takeCombine st).2).store
      (CombinePath directory c.name) (icons (CombinePath directory c.name))
    simp [AddFileItem, htp, hvp.1] at hnone

/-- Claim C3: for every directory tree whose depth does not exceed
`MAX_DEPTH` (`requiredDepth n ≤ maxDepth`) and a walk in which no
allocation, enumeration or submenu creation fails (all oracles exhausted,
i.e. every such call succeeds), the number of Entry Store records after the
walk equals the number of non-hidden, non-system, non-"."/".." filesystem
entries encountered during the walk — files plus directories, where the
contents of skipped directories are never encountered — and the walk
reports success. -/
theorem enumerateFolder_count_complete (icons : String → Option Nat)
    (maxDepth : Nat) (n : FSNode) (directory : String)
    (hdir : n.attrDirectory = true) (hdepth : requiredDepth n ≤ maxDepth) :
    (EnumerateFolder icons maxDepth (some n) directory 0
        ⟨⟨[], 0⟩, 1, [], [], [], []⟩).2.1.store.items.length = totalEntries n ∧
    (EnumerateFolder icons maxDepth (some n) directory 0
        ⟨⟨[], 0⟩, 1, [], [], [], []⟩).2.2 = true := by
  have hpos := requiredDepth_pos n
  have h0 : ¬maxDepth ≤ 0 := by omega
  cases n with
  | mk nm hid sys d ch =>
    simp only [FSNode.attrDirectory] at hdir
    have hbud : 0 + 1 + requiredDepthList ch ≤ maxDepth := by
      simp only [requiredDepth] at hdepth
      omega
    obtain ⟨k1, k2, k3, k4, k5⟩ :=
      enumerateChildren_count icons maxDepth ch directory 0
        ⟨⟨[], 0⟩, 1, [], [], [], []⟩ rfl rfl rfl rfl hbud
    have hred : EnumerateFolder icons maxDepth
        (some (FSNode.mk nm hid sys d ch)) directory 0
        ⟨⟨[], 0⟩, 1, [], [], [], []⟩
        = ((EnumerateChildren icons maxDepth ch directory 0
             ⟨⟨[], 0⟩, 1, [], [], [], []⟩).1,
           (EnumerateChildren icons maxDepth ch directory 0
             ⟨⟨[], 0⟩, 1, [], [], [], []⟩).2, true) := by
      simp [EnumerateFolder, h0, hdir, FSNode.attrDirectory, FSNode.children,
        takeCombine, takeFind]
    rw [hred]
    refine ⟨?_, rfl⟩
    rw [k1]
    simp [totalEntries]

/-- Destination tree for the `enumerateFolder_count_complete` witness: six
objects, one hidden file, one system directory (whose contents must not be
counted), one "." pseudo-entry, and a directory nested two levels deep. -/
def CountWitnessRoot : FSNode :=
  .mk "R" false false true
    [ .mk "a.txt" false false false []
    , .mk "secret.txt" true false false []
    , .mk "." false false true []
    , .mk "sys" false true true [.mk "inside.txt" false false false []]
    , .mk "sub" false false true
        [ .mk "b.txt" false false false []
        , .mk "deep" false false true [.mk "c.txt" false false false []] ] ]

/-- Witness for `enumerateFolder_count_complete`: the walk over
`CountWitnessRoot` with the code's `MAX_DEPTH = 5` stores exactly 5 entries
(`a.txt`, `sub`, `b.txt`, `deep`, `c.txt`). -/
theorem enumerateFolder_count_complete_witness :
    (EnumerateFolder (fun _ => none) MAX_DEPTH (some CountWitnessRoot) "R" 0
        ⟨⟨[], 0⟩, 1, [], [], [], []⟩).2.1.store.items.length = 5 :=
  ((enumerateFolder_count_complete (fun _ => none) MAX_DEPTH CountWitnessRoot
    "R" (by rfl) (by decide)).1).trans (by rfl)

/-- Claim C2: for every store state and `(path, icon)` pair, a failing
`VectorPush` (its `realloc` denied) leaves the `MenuVector` completely
unchanged — same count, same capacity, same items — and therefore adds no
reference to the pushed path or icon, which the caller still owns; a
successful `VectorPush` appends exactly `(path, icon)`, transferring
ownership of both resources to the store. -/
theorem vectorPush_ownership (allocOk : Bool) (vec : MenuVector)
    (path : String) (icon : Option Nat) :
    ((VectorPush allocOk vec path icon).1 = false →
      (VectorPush allocOk vec path icon).2 = vec ∧
      (path ∉ vec.items.map Prod.fst →
        path ∉ (VectorPush allocOk vec path icon).2.items.map Prod.fst) ∧
      (icon ∉ vec.items.map Prod.snd →
        icon ∉ (VectorPush allocOk vec path icon).2.items.map Prod.snd)) ∧
    ((VectorPush allocOk vec path icon).1 = true →
      (VectorPush allocOk vec path icon).2.items
        = vec.items ++ [(path, icon)]) := by
  unfold VectorPush VectorEnsureCapacity
  by_cases h : vec.items.length + 1 ≤ vec.capacity
  · simp [h]
  · cases allocOk <;> simp [h]

/-- Witness for `vectorPush_ownership`: a failing push against a full
one-slot vector changes nothing, a successful push appends the pair. -/
theorem vectorPush_ownership_witness :
    ((VectorPush false ⟨[("a", none)], 1⟩ "b" (some 3)).2
        = (⟨[("a", none)], 1⟩ : MenuVector)) ∧
    (VectorPush true ⟨[("a", none)], 1⟩ "b" (some 3)).2.items
        = [("a", none), ("b", some 3)] :=
  ⟨((vectorPush_ownership false ⟨[("a", none)], 1⟩ "b" (some 3)).1
      (by decide)).1,
   (vectorPush_ownership true ⟨[("a", none)], 1⟩ "b" (some 3)).2 (by decide)⟩

/-- Claim C6: in every execution of `ExecuteDropOperation`, `DragEnter` is
invoked exactly when both COM pointers are non-null; `Drop` is invoked if
and only if that `DragEnter` succeeded and left a non-empty effect;
`DragLeave` is invoked in every other case after `DragEnter`; and never are
both `Drop` and `DragLeave` invoked. -/
theorem executeDropOperation_protocol (dataObjPresent dropTargetPresent : Bool)
    (dragEnter : Nat → Bool × Nat) :
    (ExecuteDropOperation dataObjPresent dropTargetPresent dragEnter).enterCalled
        = (dataObjPresent && dropTargetPresent) ∧
    (ExecuteDropOperation dataObjPresent dropTargetPresent dragEnter).dropCalled
        = ((dataObjPresent && dropTargetPresent)
            && ((dragEnter 7).1 && (dragEnter 7).2 != 0)) ∧
    (ExecuteDropOperation dataObjPresent dropTargetPresent dragEnter).leaveCalled
        = ((dataObjPresent && dropTargetPresent)
            && !((dragEnter 7).1 && (dragEnter 7).2 != 0)) ∧
    ((ExecuteDropOperation dataObjPresent dropTargetPresent dragEnter).dropCalled
        && (ExecuteDropOperation dataObjPresent dropTargetPresent dragEnter).leaveCalled)
      = false := by
  rcases hde : dragEnter 7 with ⟨ok, eff⟩
  cases dataObjPresent <;> cases dropTargetPresent <;> cases ok <;>
    simp [ExecuteDropOperation, hde] <;>
    by_cases he : eff = 0 <;> simp_all

/-- Claim C9: for every icon handle passed into `DibFromIcon`, the source
icon is destroyed exactly once on every execution path — whether
`GetIconInfo`, `GetObject` or the DIB allocation succeed or fail — and a
`NULL` icon is never destroyed. -/
theorem dibFromIcon_always_releases (h : Nat)
    (getIconInfoOk getObjectOk createDibOk createDCOk : Bool) (dibId : Nat) :
    (DibFromIcon (some h) getIconInfoOk getObjectOk createDibOk createDCOk
        dibId).2 = 1 ∧
    (DibFromIcon none getIconInfoOk getObjectOk createDibOk createDCOk
        dibId).2 = 0 := by
  cases getIconInfoOk <;> cases getObjectOk <;> cases createDibOk <;>
    simp [DibFromIcon]

theorem bindLoop_failure (binds : List (Option Nat)) :
    ∀ led : BindLedger, led.acquired = led.released → none ∈ binds →
      (BindLoop binds none led).1 = false ∧
      (BindLoop binds none led).2.1 = none ∧
      (BindLoop binds none led).2.2.acquired = (BindLoop binds none led).2.2.released := by
  induction binds with
  | nil =>
    intro led _ hmem
    simp at hmem
  | cons b rest ih =>
    intro led hinv hmem
    cases b with
    | none =>
      simp [BindLoop, SafeRelease, hinv]
    | some p =>
      have hmem2 : none ∈ rest := by
        rcases List.mem_cons.mp hmem with h | h
        · exact absurd h (by simp)
        · exact h
      have hrest : ¬rest.isEmpty = true := by
        cases rest with
        | nil => simp at hmem2
        | cons x xs => simp [List.isEmpty]
      have := ih { acquired := led.acquired ++ [p],
                   released := led.released ++ [p] } (by simp [hinv]) hmem2
      simpa [BindLoop, hrest] using this

/-- Claim C7: capability binding over an array of shell identifiers is
atomic.  If `SHBindToParent` fails for any single identifier (`none` in
`binds`), `GetShellInterfaceForPIDLs` returns failure, leaves the output
interface pointer `NULL`, and every parent-container reference acquired for
the earlier identifiers has been released when it returns. -/
theorem getShellInterface_atomic_on_bind_failure (binds : List (Option Nat))
    (uiObjectResult : Option Nat) (hmem : none ∈ binds) :
    (GetShellInterfaceForPIDLs true binds uiObjectResult).1 = false ∧
    (GetShellInterfaceForPIDLs true binds uiObjectResult).2.1 = none ∧
    (GetShellInterfaceForPIDLs true binds uiObjectResult).2.2.acquired
      = (GetShellInterfaceForPIDLs true binds uiObjectResult).2.2.released := by
  obtain ⟨h1, h2, h3⟩ := bindLoop_failure binds ⟨[], []⟩ rfl hmem
  simp [GetShellInterfaceForPIDLs, h1, h2, h3]

/-- Witness for `getShellInterface_atomic_on_bind_failure`: the second of
two identifiers fails to bind; the single acquired parent reference (id 5)
is released, no handle is produced. -/
theorem getShellInterface_atomic_on_bind_failure_witness :
    (GetShellInterfaceForPIDLs true [some 5, none] (some 9)).1 = false ∧
    (GetShellInterfaceForPIDLs true [some 5, none] (some 9)).2.1 = none ∧
    (GetShellInterfaceForPIDLs true [some 5, none] (some 9)).2.2.acquired
      = (GetShellInterfaceForPIDLs true [some 5, none] (some 9)).2.2.released :=
  getShellInterface_atomic_on_bind_failure [some 5, none] (some 9) (by decide)

theorem getLast?_cons_or {α : Type} (a : α) (l : List α) (b : Option α) :
    ((a :: l).getLast?).or b = (l.getLast?).or (some a) := by
  cases l with
  | nil => simp
  | cons x xs =>
    rw [List.getLast?_cons_cons]
    have hne : (x :: xs).getLast? ≠ none := by
      simp [List.getLast?_eq_none_iff]
    obtain ⟨v, hv⟩ := Option.ne_none_iff_exists'.mp hne
    simp [hv]

theorem parseArgsLoop_spec (args : List String) (dir0 : Option String)
    (files0 : List String) (d : Option String) (fs : List String)
    (h : ParseArgsLoop args dir0 files0 = some (d, fs)) :
    fs = files0 ++ RemoveDirSwitches args ∧
    d = ((DirOverrides args).getLast?).or dir0 := by
  induction args, dir0, files0 using ParseArgsLoop.induct generalizing d fs with
  | case1 dir files =>
    simp only [ParseArgsLoop, Option.some.injEq, Prod.mk.injEq] at h
    simp [RemoveDirSwitches, DirOverrides, ← h.1, ← h.2]
  | case2 p rest dir files hhelp =>
    rw [ParseArgsLoop.eq_def] at h
    simp [hhelp] at h
  | case3 p dir files hhelp hd dArg rest2 ih =>
    rw [ParseArgsLoop.eq_def] at h
    simp only [hhelp, hd, Bool.false_eq_true, if_false, if_true] at h
    obtain ⟨h1, h2⟩ := ih d fs h
    have hrds : RemoveDirSwitches (p :: dArg :: rest2) = RemoveDirSwitches rest2 := by
      rw [RemoveDirSwitches.eq_def]
      simp [hd]
    have hdo : DirOverrides (p :: dArg :: rest2) = dArg :: DirOverrides rest2 := by
      rw [DirOverrides.eq_def]
      simp [hd]
    constructor
    · rw [h1, hrds]
    · rw [h2, hdo, getLast?_cons_or]
  | case4 p dir files hhelp hd =>
    rw [ParseArgsLoop.eq_def] at h
    simp [hhelp, hd] at h
  | case5 p rest dir files hhelp hd ih =>
    rw [ParseArgsLoop.eq_def] at h
    simp only [hhelp, hd, Bool.false_eq_true, if_false] at h
    obtain ⟨h1, h2⟩ := ih d fs h
    have hrds : RemoveDirSwitches (p :: rest) = p :: RemoveDirSwitches rest := by
      rw [RemoveDirSwitches.eq_def]
      simp [hd]
    have hdo : DirOverrides (p :: rest) = DirOverrides rest := by
      rw [DirOverrides.eq_def]
      simp [hd]
    constructor
    · rw [h1, hrds]
      simp
    · rw [h2, hdo]

/-- Claim C10: whenever `ParseCommandLine` succeeds, the executable path
stays at output index 0; the output file list is exactly the input argument
tail with every `/D` switch removed together with the directory argument it
consumes, all other arguments kept in their relative order; and the
returned destination-root override is the directory supplied by the last
`/D` switch (or absent when no `/D` occurred). -/
theorem parseCommandLine_spec (exe : String) (rest : List String)
    (d : Option String) (out : List String)
    (h : ParseCommandLine (exe :: rest) = some (d, out)) :
    out.head? = some exe ∧
    out = exe :: RemoveDirSwitches rest ∧
    d = (DirOverrides rest).getLast? := by
  simp only [ParseCommandLine, Option.map_eq_some'] at h
  obtain ⟨⟨d1, fs1⟩, hp, heq⟩ := h
  obtain ⟨hfs, hd⟩ := parseArgsLoop_spec rest none [] d1 fs1 hp
  simp only [Prod.mk.injEq] at heq
  obtain ⟨hd1, hout⟩ := heq
  subst hd1
  subst hout
  refine ⟨rfl, ?_, ?_⟩
  · rw [hfs]
    simp
  · rw [hd]
    simp

/-- Witness for `parseCommandLine_spec`: parsing
`sendto.exe a.txt /d D1 b.txt /D D2 c.txt` keeps the executable at index 0,
keeps `a.txt b.txt c.txt` in order, removes both `/D` switch pairs, and the
last override `D2` wins. -/
theorem parseCommandLine_spec_witness :
    ParseCommandLine ["sendto.exe", "a.txt", "/d", "D1", "b.txt", "/D", "D2",
        "c.txt"]
      = some (some "D2", ["sendto.exe", "a.txt", "b.txt", "c.txt"]) ∧
    ["sendto.exe", "a.txt", "b.txt", "c.txt"].head? = some "sendto.exe" ∧
    ["sendto.exe", "a.txt", "b.txt", "c.txt"]
      = "sendto.exe" :: RemoveDirSwitches ["a.txt", "/d", "D1", "b.txt", "/D",
          "D2", "c.txt"] ∧
    (some "D2" : Option String)
      = (DirOverrides ["a.txt", "/d", "D1", "b.txt", "/D", "D2",
          "c.txt"]).getLast? :=
  ⟨by rfl,
   parseCommandLine_spec "sendto.exe"
    ["a.txt", "/d", "D1", "b.txt", "/D", "D2", "c.txt"]
    (some "D2") ["sendto.exe", "a.txt", "b.txt", "c.txt"] (by rfl)⟩

/-- Claim C8: given a successful command-line parse, `RunSendTo` exits 1
after showing a modal error box whenever destination-directory
resolution/validation fails, whenever `EnumerateFolder` reports an error
(enumeration could not be started), or whenever the walk stored zero
entries; and it exits 0 with no error box for every menu outcome `choice`
otherwise — both `choice = 0` (menu dismissed, no drag-drop attempted) and
any selected command id lead to `EXIT_SUCCESS`. -/
theorem runSendTo_exit_behavior (rawArgv : List String)
    (resolvedDefault : Option String) (fsLookup : String → Option FSNode)
    (icons : String → Option Nat) (maxDepth : Nat) (cf ff pf mf : List Bool)
    (choice : Nat) (dirOpt : Option String) (cleanArgs : List String)
    (hparse : ParseCommandLine rawArgv = some (dirOpt, cleanArgs)) :
    (ValidateSendToDirectory fsLookup
        (match dirOpt with | some d => some d | none => resolvedDefault)
          = false →
      RunSendTo rawArgv resolvedDefault fsLookup icons maxDepth cf ff pf mf
        choice = (1, true)) ∧
    (∀ dir,
      (match dirOpt with | some d => some d | none => resolvedDefault)
          = some dir →
      ValidateSendToDirectory fsLookup (some dir) = true →
      (((EnumerateFolder icons maxDepth (fsLookup dir) dir 0
            ⟨⟨[], 0⟩, 1, cf, ff, pf, mf⟩).2.2 = false ∨
        (EnumerateFolder icons maxDepth (fsLookup dir) dir 0
            ⟨⟨[], 0⟩, 1, cf, ff, pf, mf⟩).2.1.store.items.length = 0) →
        RunSendTo rawArgv resolvedDefault fsLookup icons maxDepth cf ff pf mf
          choice = (1, true)) ∧
      ((EnumerateFolder icons maxDepth (fsLookup dir) dir 0
            ⟨⟨[], 0⟩, 1, cf, ff, pf, mf⟩).2.2 = true →
        (EnumerateFolder icons maxDepth (fsLookup dir) dir 0
            ⟨⟨[], 0⟩, 1, cf, ff, pf, mf⟩).2.1.store.items.length ≠ 0 →
        RunSendTo rawArgv resolvedDefault fsLookup icons maxDepth cf ff pf mf
          choice = (0, false))) := by
  refine ⟨?_, ?_⟩
  · intro hval
    unfold RunSendTo
    rw [hparse]
    cases dirOpt with
    | some d0 =>
      simp only [] at hval
      simp [hval]
    | none =>
      simp only [] at hval
      simp [hval]
  · intro dir hdir hval
    have hbF : ((EnumerateFolder icons maxDepth (fsLookup dir) dir 0
          ⟨⟨[], 0⟩, 1, cf, ff, pf, mf⟩).2.2 = false ∨
        (EnumerateFolder icons maxDepth (fsLookup dir) dir 0
          ⟨⟨[], 0⟩, 1, cf, ff, pf, mf⟩).2.1.store.items.length = 0) →
        (BuildSendToMenu icons maxDepth fsLookup dir cf ff pf mf).1 = false := by
      intro hfail
      unfold BuildSendToMenu
      by_cases he : (EnumerateFolder icons maxDepth (fsLookup dir) dir 0
          ⟨⟨[], 0⟩, 1, cf, ff, pf, mf⟩).2.2 = false
      · simp [he]
      · have he2 : (EnumerateFolder icons maxDepth (fsLookup dir) dir 0
            ⟨⟨[], 0⟩, 1, cf, ff, pf, mf⟩).2.2 = true := by
          revert he
          cases (EnumerateFolder icons maxDepth (fsLookup dir) dir 0
            ⟨⟨[], 0⟩, 1, cf, ff, pf, mf⟩).2.2 <;> simp
        rcases hfail with hf | hf
        · rw [he2] at hf
          cases hf
        · simp [he2, hf]
    constructor
    · intro hfail
      have hb := hbF hfail
      unfold RunSendTo
      rw [hparse]
      cases dirOpt with
      | some d0 =>
        simp only [Option.some.injEq] at hdir
        subst hdir
        simp [hval, hb]
      | none =>
        simp only [] at hdir
        rw [hdir]
        simp [hval, hb]
    · intro hok hnz
      have hb : (BuildSendToMenu icons maxDepth fsLookup dir cf ff pf mf).1
          = true := by
        unfold BuildSendToMenu
        simp [hok, hnz]
      unfold RunSendTo
      rw [hparse]
      cases dirOpt with
      | some d0 =>
        simp only [Option.some.injEq] at hdir
        subst hdir
        simp [hval, hb]
      | none =>
        simp only [] at hdir
        rw [hdir]
        simp [hval, hb]

/-- A one-file `sendto` directory for the `runSendTo_exit_behavior`
witness. -/
def C8Dir : FSNode :=
  .mk "sendto" false false true [.mk "a.txt" false false false []]

/-- Filesystem in which only the path `D` exists and holds `C8Dir`. -/
def C8Lookup : String → Option FSNode :=
  fun p => if p = "D" then some C8Dir else none

/-- Filesystem in which `D` is an existing but empty directory. -/
def C8LookupEmpty : String → Option FSNode :=
  fun p => if p = "D" then some (FSNode.mk "sendto" false false true []) else none

/-- Witness for `runSendTo_exit_behavior`: with no destination root the run
exits 1 after an error box; with a valid one-entry root, both the dismissed
menu (`choice = 0`) and a selection (`choice = 3`) exit 0 without an error
box; with a valid empty root the run exits 1 after an error box. -/
theorem runSendTo_exit_behavior_witness :
    RunSendTo ["sendto.exe"] none C8Lookup (fun _ => none) MAX_DEPTH
        [] [] [] [] 0 = (1, true) ∧
    RunSendTo ["sendto.exe"] (some "D") C8Lookup (fun _ => none) MAX_DEPTH
        [] [] [] [] 0 = (0, false) ∧
    RunSendTo ["sendto.exe"] (some "D") C8Lookup (fun _ => none) MAX_DEPTH
        [] [] [] [] 3 = (0, false) ∧
    RunSendTo ["sendto.exe"] (some "D") C8LookupEmpty (fun _ => none) MAX_DEPTH
        [] [] [] [] 0 = (1, true) :=
  ⟨(runSendTo_exit_behavior ["sendto.exe"] none C8Lookup (fun _ => none)
      MAX_DEPTH [] [] [] [] 0 none ["sendto.exe"] (by rfl)).1 (by rfl),
   ((runSendTo_exit_behavior ["sendto.exe"] (some "D") C8Lookup (fun _ => none)
      MAX_DEPTH [] [] [] [] 0 none ["sendto.exe"] (by rfl)).2 "D" (by rfl)
      (by rfl)).2 (by rfl) (by decide),
   ((runSendTo_exit_behavior ["sendto.exe"] (some "D") C8Lookup (fun _ => none)
      MAX_DEPTH [] [] [] [] 3 none ["sendto.exe"] (by rfl)).2 "D" (by rfl)
      (by rfl)).2 (by rfl) (by decide),
   ((runSendTo_exit_behavior ["sendto.exe"] (some "D") C8LookupEmpty
      (fun _ => none) MAX_DEPTH [] [] [] [] 0 none ["sendto.exe"] (by rfl)).2
      "D" (by rfl) (by rfl)).1 (Or.inr (by rfl))⟩
